import Mathlib

/-!
Verification of the RKPI2 header codec (tripulse/rkpi2-rs).

Shallow embedding of `src/lib.rs` and `src/utils/mod.rs`.  Byte sinks and
sources are modelled as lists of natural numbers below 256 (a `u8` value is
a `Nat`; no arithmetic here can overflow a `u8`, see the comments at each
packing step).  The zstd compression collaborator is external to the
repository, so `mux`/`demux` return a `Bool` recording whether the stream
would be wrapped in the compressor/decompressor, instead of the wrapped
stream itself.
-/

namespace RKPI2

/-- Sample format enumeration `Fmt` from `src/utils/mod.rs`, with
discriminants 0..5. -/
inductive Fmt where
  | Int8
  | Int16
  | Int32
  | Int64
  | Float32
  | Float64
  deriving DecidableEq, Repr

/-- Discriminant of a `Fmt` value: the Rust cast `f as u8`. -/
def Fmt.toU8 : Fmt → Nat
  | .Int8 => 0
  | .Int16 => 1
  | .Int32 => 2
  | .Int64 => 3
  | .Float32 => 4
  | .Float64 => 5

/-- Error enumeration `RErr` from `src/utils/err.rs`; `IOError` models the
variant the source spells with the two letters I, O. -/
inductive RErr where
  | StartCode
  | Format
  | IOError
  | Rate
  | Channels
  deriving DecidableEq, Repr

/-- The `TryFrom<u8>` instance for `Fmt` in `src/utils/mod.rs`: codes 0..5
map to the six formats, anything else is `RErr::Format`. -/
def Fmt.tryFrom (f : Nat) : Except RErr Fmt :=
  match f with
  | 0 => .ok .Int8
  | 1 => .ok .Int16
  | 2 => .ok .Int32
  | 3 => .ok .Int64
  | 4 => .ok .Float32
  | 5 => .ok .Float64
  | _ => .error .Format

/-- Header structure `Hdr` from `src/utils/mod.rs` (`rate : u32`,
`channels : u8`, both modelled as `Nat`). -/
structure Hdr where
  format : Fmt
  rate : Nat
  channels : Nat
  deriving DecidableEq, Repr

/-- The fixed 8-entry samplerate table `SAMPLERATES` from `src/lib.rs`. -/
def SAMPLERATES : List Nat :=
  [8000, 12000, 22050, 32000, 44100, 64000, 96000, 192000]

/-- Rust's `Iterator::position`: the index of the first element satisfying
the predicate, or `none`. -/
def position (p : Nat → Bool) : List Nat → Option Nat
  | [] => none
  | x :: xs => if p x then some 0 else Option.map (fun i => i + 1) (position p xs)

/-- The `mux` function of `src/lib.rs`.  `w` is the current content of the
byte sink; the result pairs the sink content after the call with the Rust
return value, where `Except.ok b` abstracts `Ok(writer)` and `b` records
whether the returned writer is the zstd `Encoder` wrapper (`lev` supplied).
Writing to the list sink cannot fail, and `Encoder::new` is external, so the
`IOError` paths of the source do not arise in the model.

Bit packing (all intermediate values fit in a `u8`, so plain `Nat`
arithmetic is exact): `0x3d <<< 2 = 244`; the compressed flag shifted left
by 1 is at most 2; `format.toU8 >>> 2` is at most 1; in byte1 the three
fields occupy bits [7:6], [5:3], [2:0] with maxima 192, 56 and 7. -/
def mux (w : List Nat) (h : Hdr) (lev : Option Nat) :
    List Nat × Except RErr Bool :=
  match position (fun s => s == h.rate) SAMPLERATES with
  | none => (w, .error .Rate)
  | some srateIdx =>
    if 1 ≤ h.channels ∧ h.channels ≤ 8 then
      let compressed : Nat := if lev.isSome then 1 else 0
      let byte0 := 0x3d <<< 2 ||| compressed <<< 1 ||| h.format.toU8 >>> 2
      let byte1 := (h.format.toU8 &&& 3) <<< 6 ||| srateIdx <<< 3 ||| (h.channels - 1)
      (w ++ [byte0, byte1], .ok lev.isSome)
    else (w, .error .Channels)

/-- The `demux` function of `src/lib.rs`.  `r` is the byte source.  The
source calls `Read::read` once into a zero-initialised 2-byte buffer: for a
byte-list source this reads `min 2 r.length` bytes and never returns `Err`,
so a short read leaves the remaining buffer bytes at 0 — modelled by
`List.getD _ 0`.  On success the result carries the compression flag
(whether the source would be wrapped in the zstd `Decoder`), the unread
remainder of the source, and the decoded header.  The samplerate index
`hdr1 >>> 3 &&& 3` is at most 3, hence always within the 8-entry table, so
`List.getD _ 0` equals the Rust panic-free indexing. -/
def demux (r : List Nat) : Except RErr (Bool × List Nat × Hdr) :=
  let hdr0 := r.getD 0 0
  let hdr1 := r.getD 1 0
  if hdr0 >>> 2 ≠ 0x3d then .error .StartCode
  else
    match Fmt.tryFrom ((hdr0 &&& 1) <<< 2 ||| hdr1 >>> 6) with
    | .error e => .error e
    | .ok format =>
      let h : Hdr :=
        { format := format,
          rate := SAMPLERATES.getD (hdr1 >>> 3 &&& 3) 0,
          channels := (hdr1 &&& 3) + 1 }
      .ok (hdr0 >>> 1 &&& 1 == 1, r.drop 2, h)

theorem demux_cons_cons (b0 b1 : Nat) :
    demux [b0, b1] = if b0 >>> 2 ≠ 0x3d then .error .StartCode
      else match Fmt.tryFrom ((b0 &&& 1) <<< 2 ||| b1 >>> 6) with
        | .error e => .error e
        | .ok format => .ok (b0 >>> 1 &&& 1 == 1, [],
            { format := format,
              rate := SAMPLERATES.getD (b1 >>> 3 &&& 3) 0,
              channels := (b1 &&& 3) + 1 }) :=
  rfl

theorem position_eq_none_of_not_mem (a : Nat) (l : List Nat) (h : a ∉ l) :
    position (fun s => s == a) l = none := by
  induction l with
  | nil => rfl
  | cons x xs ih =>
    have hx : ¬ x = a := fun hxa => h (hxa ▸ List.mem_cons_self x xs)
    have hxs : a ∉ xs := fun hm => h (List.mem_cons_of_mem _ hm)
    simp [position, hx, ih hxs]

theorem position_isSome_of_mem (a : Nat) (l : List Nat) (h : a ∈ l) :
    ∃ i, position (fun s => s == a) l = some i := by
  induction l with
  | nil => cases h
  | cons x xs ih =>
    by_cases hx : x = a
    · exact ⟨0, by simp [position, hx]⟩
    · rcases List.mem_cons.mp h with h1 | h2
      · exact absurd h1.symm hx
      · obtain ⟨i, hi⟩ := ih h2
        exact ⟨i + 1, by simp [position, hx, hi]⟩

/-- C1.  The claimed round-trip fails on the code: encoding the valid
header (Int8, 44100 Hz, 1 channel) without compression and decoding the
produced bytes yields rate 8000, not 44100, because the decoder masks the
rate-index bits of byte1 with 3 instead of 7. -/
theorem mux_demux_roundtrip_fails_at_44100 :
    mux [] ⟨.Int8, 44100, 1⟩ none = ([0xF4, 0x20], .ok false) ∧
    demux [0xF4, 0x20] = .ok (false, [], ⟨.Int8, 8000, 1⟩) :=
  ⟨rfl, rfl⟩

/-- C2.  On the 2-byte wire header [0xF4, 0x3F] (valid start code, format
code 0), the decoder yields rate 32000 and channels 4: it extracts only
byte1 bits [4:3] (mask 3 after the shift) and bits [1:0] instead of the
claimed bits [5:3] and [2:0], which would give rate 192000 and channels
8. -/
theorem demux_masks_only_two_bits :
    demux [0xF4, 0x3F] = .ok (false, [], ⟨.Int8, 32000, 4⟩) ∧
    SAMPLERATES.getD (0x3F >>> 3 &&& 7) 0 = 192000 ∧ (0x3F &&& 7) + 1 = 8 :=
  ⟨rfl, rfl, rfl⟩

/-- C3.  On a source holding a single byte 0xF4 (fewer than 2 bytes
available), demux does not fail with an I/O error: the single `read` call
leaves the second buffer byte at 0 and decoding proceeds, returning the
garbage header (Int8, 8000, 1) successfully. -/
theorem demux_accepts_short_read :
    demux [0xF4] = .ok (false, [], ⟨.Int8, 8000, 1⟩) :=
  rfl

/-- C4.  Encoding Header{format: Int8, rate: 8000, channels: 1} with no
compression succeeds and writes exactly the two bytes [0xF4, 0x00]. -/
theorem mux_bit_layout_exact :
    mux [] ⟨.Int8, 8000, 1⟩ none = ([0xF4, 0x00], .ok false) :=
  rfl

/-- C5.  For every 2-byte input whose top 6 bits of byte0 differ from
0b111101 (0x3D), demux fails with StartCodeError. -/
theorem demux_start_code_rejected (b0 b1 : Nat) (hb0 : b0 < 256)
    (hb1 : b1 < 256) (hs : b0 >>> 2 ≠ 0x3d) :
    demux [b0, b1] = .error .StartCode := by
  rw [demux_cons_cons, if_pos hs]

theorem demux_start_code_rejected_witness :
    demux [0, 0] = .error .StartCode :=
  demux_start_code_rejected 0 0 (by decide) (by decide) (by decide)

/-- C6.  For every 2-byte input with a valid start code whose 3-bit format
code (byte0 bit [0] concatenated with byte1 bits [7:6]) is 6 or 7, demux
fails with FormatError. -/
theorem demux_reserved_format_rejected (b0 b1 : Nat) (hb0 : b0 < 256)
    (hb1 : b1 < 256) (hs : b0 >>> 2 = 0x3d)
    (hf : (b0 &&& 1) <<< 2 ||| b1 >>> 6 = 6 ∨
      (b0 &&& 1) <<< 2 ||| b1 >>> 6 = 7) :
    demux [b0, b1] = .error .Format := by
  have ht : Fmt.tryFrom ((b0 &&& 1) <<< 2 ||| b1 >>> 6) = .error .Format := by
    rcases hf with hf | hf <;> rw [hf] <;> rfl
  rw [demux_cons_cons, if_neg (fun hne => hne hs), ht]

theorem demux_reserved_format_rejected_witness :
    demux [0xF5, 0x80] = .error .Format :=
  demux_reserved_format_rejected 0xF5 0x80 (by decide) (by decide)
    (by decide) (Or.inl (by decide))

/-- C7.  For every header whose rate is not in the 8-entry samplerate
table, mux fails with RateError and leaves the sink unchanged (no bytes
written). -/
theorem mux_rate_rejected (w : List Nat) (h : Hdr) (lev : Option Nat)
    (hr : h.rate ∉ SAMPLERATES) : mux w h lev = (w, .error .Rate) := by
  unfold mux
  rw [position_eq_none_of_not_mem h.rate SAMPLERATES hr]

theorem mux_rate_rejected_witness :
    mux [] ⟨.Int8, 50000, 1⟩ none = ([], .error .Rate) :=
  mux_rate_rejected [] ⟨.Int8, 50000, 1⟩ none (by decide)

/-- C8.  For every header with a valid rate whose channels field lies
outside [1,8], mux fails with ChannelsError and leaves the sink unchanged:
the value is rejected, never clamped. -/
theorem mux_channels_rejected (w : List Nat) (h : Hdr) (lev : Option Nat)
    (hr : h.rate ∈ SAMPLERATES)
    (hc : ¬ (1 ≤ h.channels ∧ h.channels ≤ 8)) :
    mux w h lev = (w, .error .Channels) := by
  obtain ⟨i, hi⟩ := position_isSome_of_mem h.rate SAMPLERATES hr
  unfold mux
  rw [hi]
  exact if_neg hc

theorem mux_channels_rejected_witness :
    mux [] ⟨.Int8, 8000, 0⟩ none = ([], .error .Channels) :=
  mux_channels_rejected [] ⟨.Int8, 8000, 0⟩ none (by decide) (by decide)

/-- C9.  The format-code ↔ SampleFormat conversion is a bidirectional
lock-step mapping: every format's discriminant converts back to the same
format, and every code in 0..=5 survives the round trip through the
enumeration. -/
theorem fmt_code_lockstep :
    (∀ f : Fmt, Fmt.tryFrom f.toU8 = .ok f) ∧
    (∀ c : Nat, c < 6 → Except.map Fmt.toU8 (Fmt.tryFrom c) = .ok c) := by
  constructor
  · intro f
    cases f <;> rfl
  · intro c hc
    interval_cases c <;> rfl

theorem fmt_code_lockstep_witness :
    Fmt.tryFrom (Fmt.toU8 .Float64) = .ok .Float64 ∧
    Except.map Fmt.toU8 (Fmt.tryFrom 5) = .ok 5 :=
  ⟨fmt_code_lockstep.1 .Float64, fmt_code_lockstep.2 5 (by decide)⟩

/-- C10.  When both the rate and the channels field are invalid, mux fails
with RateError: the rate lookup precedes the channels check. -/
theorem mux_rate_checked_before_channels (w : List Nat) (h : Hdr)
    (lev : Option Nat) (hr : h.rate ∉ SAMPLERATES)
    (hc : ¬ (1 ≤ h.channels ∧ h.channels ≤ 8)) :
    mux w h lev = (w, .error .Rate) := by
  unfold mux
  rw [position_eq_none_of_not_mem h.rate SAMPLERATES hr]

theorem mux_rate_checked_before_channels_witness :
    mux [] ⟨.Int8, 50000, 0⟩ none = ([], .error .Rate) :=
  mux_rate_checked_before_channels [] ⟨.Int8, 50000, 0⟩ none
    (by decide) (by decide)

end RKPI2
